import Mathlib

/-!
Verification development for the catai command line utility: a shallow
embedding of its file selection, classification, filtering, size gating
and concatenation pipeline, with theorems about the pipeline.

Modelling conventions.  External collaborators of the program (the
filesystem, the directory walker, path resolution and relative path
computation from the std path library, and glob to regex compilation)
are parameters collected in the Env structure; the logic of the program
itself is translated function by function from the source.  Machine
numbers are modelled as Nat; where the source compares IEEE double
values the doc comment of the embedding states why the exact comparison
used here coincides with the double comparison on the reachable range.
JS string helpers that the source calls (toLowerCase, trim, trimEnd,
Array.sort on strings) are re-implemented structurally so that every
definition evaluates inside the kernel.
-/

namespace Catai

/-- Lower-cases one ASCII letter, as String.prototype.toLowerCase does on
the ASCII range (the only range the program compares against). -/
def lowerChar (c : Char) : Char :=
  if 'A' ≤ c ∧ c ≤ 'Z' then Char.ofNat (c.toNat + 32) else c

/-- Structural model of String.prototype.toLowerCase. -/
def lowerStr (s : String) : String := String.mk (s.data.map lowerChar)

/-- Structural model of String.prototype.trim, removing leading and
trailing whitespace. -/
def trimStr (s : String) : String :=
  String.mk (((s.data.dropWhile Char.isWhitespace).reverse.dropWhile Char.isWhitespace).reverse)

/-- Structural model of String.prototype.trimEnd, removing trailing
whitespace. -/
def trimEndStr (s : String) : String :=
  String.mk ((s.data.reverse.dropWhile Char.isWhitespace).reverse)

/-- Code-unit lexicographic order on character lists, the comparison that
Array.prototype.sort() applies to strings. -/
def charListLe : List Char → List Char → Bool
  | [], _ => true
  | _ :: _, [] => false
  | x :: xs, y :: ys =>
    if x.toNat < y.toNat then true
    else if y.toNat < x.toNat then false
    else charListLe xs ys

/-- Lexicographic string comparison used by sortStrings. -/
def strLe (a b : String) : Bool := charListLe a.data b.data

/-- Insertion step of the structural sort. -/
def insertSorted (x : String) : List String → List String
  | [] => [x]
  | y :: ys => if strLe x y then x :: y :: ys else y :: insertSorted x ys

/-- Structural model of Array.prototype.sort() on string arrays, used for
the files.sort() call in getFiles. -/
def sortStrings : List String → List String
  | [] => []
  | x :: xs => insertSorted x (sortStrings xs)

/-- The BINARY_EXT set of the source, as a list of lower-case extensions. -/
def BINARY_EXT : List String :=
  [".png", ".jpg", ".jpeg", ".gif", ".ico", ".webp", ".bmp", ".pdf",
   ".zip", ".tar", ".gz", ".rar", ".7z", ".exe", ".dll", ".so", ".dylib",
   ".bin", ".mp3", ".mp4", ".wav", ".avi", ".mov", ".mkv", ".woff",
   ".woff2", ".ttf", ".eot", ".otf"]

/-- Extension extraction of isTextFile:
path.substring(path.lastIndexOf(".")).toLowerCase().  When the path
contains a dot this is the suffix starting at the last dot; when it does
not, lastIndexOf returns -1 and substring(-1) is the whole path. -/
def extOf (path : String) : String :=
  let cs := path.data
  let raw :=
    if cs.contains '.'
    then String.mk ('.' :: (cs.reverse.takeWhile (fun c => c ≠ '.')).reverse)
    else path
  lowerStr raw

/-- A filesystem node as seen through Deno.stat and the std walk helper:
either a plain file, or a directory together with the list of file paths
that walk yields under it (walk already applies the IGNORED skip list and
yields only entries with isFile, exactly what the getFiles loop keeps). -/
inductive FsEntry where
  | file : FsEntry
  | dir (walked : List String) : FsEntry

/-- The external collaborators of the program, as one record of functions:
fs models Deno.stat plus the walk helper (none when stat throws), statSize
models stat.size, readBytes models Deno.readFile (none when the read
throws), readText models Deno.readTextFile, rel models relative from the
std path library, globMatch pat s models
globToRegExp(pat, extended+globstar).test(s), resolvePath models resolve,
and cwd models Deno.cwd(). -/
structure Env where
  fs : String → Option FsEntry
  statSize : String → Nat
  readBytes : String → Option (List Nat)
  readText : String → String
  rel : String → String → String
  globMatch : String → String → Bool
  resolvePath : String → String
  cwd : String

/-- Number of zero bytes in a sample, the nullCount loop of isTextFile. -/
def nullCountOf (sample : List Nat) : Nat :=
  (sample.filter (fun b => b == 0)).length

/-- The zero-byte fraction nullCount / sample.length of isTextFile, as an
exact rational (with the Lean convention that division by zero is zero). -/
def zeroFraction (sample : List Nat) : ℚ :=
  (nullCountOf sample : ℚ) / (sample.length : ℚ)

/-- Embeds isTextFile.  The source computes
nullCount / sample.length < 0.1 in IEEE doubles.  For a non-empty sample
of length at most 8000 the exact fraction differs from 1/10 by at least
1/80000 whenever it differs at all, far above the rounding error of one
double division, and when the fraction is exactly 1/10 both sides round
to the same double; so the double comparison equals the exact comparison
10 * nullCount < length.  For the empty sample the source divides 0 by 0,
obtaining NaN, and NaN < 0.1 is false, so the function returns false
(binary).  A failed read (catch branch) also returns false. -/
def isTextFile (env : Env) (path : String) : Bool :=
  if BINARY_EXT.contains (extOf path) then false
  else
    match env.readBytes path with
    | none => false
    | some data =>
      let sample := data.take 8000
      decide (sample.length ≠ 0 ∧ 10 * nullCountOf sample < sample.length)

/-- Embeds getFiles: stat the path; a plain file is returned directly, a
directory yields its walked files, sorted; a failing stat is fatal (none). -/
def getFiles (env : Env) (path : String) : Option (List String) :=
  match env.fs path with
  | none => none
  | some FsEntry.file => some [path]
  | some (FsEntry.dir walked) => some (sortStrings walked)

/-- Embeds the allFiles accumulation loop: for each input path p, append
getFiles(resolve(p)); any getFiles failure aborts the run. -/
def resolveInputs (env : Env) : List String → Option (List String)
  | [] => some []
  | p :: rest =>
    match getFiles env (env.resolvePath p) with
    | none => none
    | some fs =>
      match resolveInputs env rest with
      | none => none
      | some more => some (fs ++ more)

/-- The per-input file lists of the accumulation loop, before
concatenation. -/
def perInputFiles (env : Env) : List String → Option (List (List String))
  | [] => some []
  | p :: rest =>
    match getFiles env (env.resolvePath p) with
    | none => none
    | some fs =>
      match perInputFiles env rest with
      | none => none
      | some more => some (fs :: more)

/-- Embeds the base directory computation: with exactly one input path
the base candidate is its resolved form, otherwise the working directory;
the candidate is kept only when stat says it is a directory, else the
working directory is used. -/
def baseDirOf (env : Env) (paths : List String) : String :=
  match paths with
  | [p] =>
    match env.fs (env.resolvePath p) with
    | some (FsEntry.dir _) => env.resolvePath p
    | _ => env.cwd
  | _ => env.cwd

/-- Embeds the display name computation relative(baseDir, file) || file:
the relative path, or the file itself when the relative path is empty. -/
def displayName (env : Env) (bd file : String) : String :=
  let r := env.rel bd file
  if r = "" then file else r

/-- Embeds matchesPattern: the path matches when some pattern accepts its
relative form or its absolute form. -/
def matchesPattern (env : Env) (filePath : String) (patterns : List String) (bd : String) : Bool :=
  let relativePath := env.rel bd filePath
  patterns.any (fun pattern => env.globMatch pattern relativePath || env.globMatch pattern filePath)

/-- Embeds the include filter: applied only when the include list is
present and non-empty (whitelist). -/
def includeFilter (env : Env) (inc : Option (List String)) (bd : String) (files : List String) : List String :=
  match inc with
  | some ps => if 0 < ps.length then files.filter (fun file => matchesPattern env file ps bd) else files
  | none => files

/-- Embeds the exclude filter: applied only when the exclude list is
present and non-empty (blacklist). -/
def excludeFilter (env : Env) (exc : Option (List String)) (bd : String) (files : List String) : List String :=
  match exc with
  | some ps => if 0 < ps.length then files.filter (fun file => !matchesPattern env file ps bd) else files
  | none => files

/-- Both pattern filters in source order: include, then exclude. -/
def applyFilters (env : Env) (inc exc : Option (List String)) (bd : String) (files : List String) : List String :=
  excludeFilter env exc bd (includeFilter env inc bd files)

/-- Numeric value of a decimal digit string, as parseInt computes it on
the digit strings accepted by the size regex. -/
def digitsVal (cs : List Char) : Nat :=
  cs.foldl (fun acc c => 10 * acc + (c.toNat - 48)) 0

/-- Embeds parseMaxSize: the input must match (digits)(k|kb|m|mb)? case
insensitively; k multiplies by 1024, m by 1024 * 1024; a mismatch is
fatal (none, the source exits with code 1). -/
def parseMaxSize (input : String) : Option Nat :=
  let cs := input.data
  let digits := cs.takeWhile Char.isDigit
  let unitCs := cs.drop digits.length
  if digits.isEmpty then none
  else
    let n := digitsVal digits
    let unit := lowerStr (String.mk unitCs)
    if unit = "" then some n
    else if unit = "k" ∨ unit = "kb" then some (n * 1024)
    else if unit = "m" ∨ unit = "mb" then some (n * 1024 * 1024)
    else none

/-- Embeds estimateTokens, Math.ceil(text.length / 3.5).  Exactly this is
the ceiling of 2n/7, which for natural n is (2n + 6) / 7 in natural
division.  The double computation agrees: 3.5 is exact, a quotient 2n/7
that is an integer is exactly representable so the division is exact,
and otherwise the quotient is at least 1/7 away from every integer while
the division rounding error is far smaller for every length a JS string
can have, so the ceiling is unaffected. -/
def estimateTokens (text : String) : Nat :=
  (2 * text.length + 6) / 7

/-- Embeds the normalisation of a prompt answer,
(answer || "").toLowerCase().trim(); a null answer (closed stdin)
normalises like the empty string. -/
def normChoice (answer : Option String) : String :=
  trimStr (lowerStr (answer.getD ""))

/-- Result of the size gate loop: the included file paths, the skipped
display names, and the number of prompts issued. -/
structure GateResult where
  included : List String
  skipped : List String
  prompts : Nat
  deriving DecidableEq

/-- Embeds the size gate loop (the for loop over filteredFiles).  The
Bool argument is the mutable opts.yes flag, which is both the initial
auto-confirm flag and the sticky auto-include state; the response list
models the operator, one entry consumed per prompt (none models a closed
input stream).  Non-text files are skipped by the classifier; an
oversized file under yes is included silently; otherwise a prompt is
issued and the answer a/all includes and makes yes sticky, s/skip records
the name as skipped and breaks out of the loop, y/yes includes this file
only, and anything else skips this file only. -/
def sizeGate (env : Env) (maxFileSize : Nat) (bd : String) :
    Bool → List (Option String) → List String → GateResult
  | _, _, [] => ⟨[], [], 0⟩
  | yes, responses, file :: rest =>
    if isTextFile env file = false then
      sizeGate env maxFileSize bd yes responses rest
    else if maxFileSize < env.statSize file then
      if yes then
        let r := sizeGate env maxFileSize bd yes responses rest
        ⟨file :: r.included, r.skipped, r.prompts⟩
      else
        let choice := normChoice (responses.headD none)
        if choice = "a" ∨ choice = "all" then
          let r := sizeGate env maxFileSize bd true responses.tail rest
          ⟨file :: r.included, r.skipped, r.prompts + 1⟩
        else if choice = "s" ∨ choice = "skip" then
          ⟨[], [displayName env bd file], 1⟩
        else if choice = "y" ∨ choice = "yes" then
          let r := sizeGate env maxFileSize bd yes responses.tail rest
          ⟨file :: r.included, r.skipped, r.prompts + 1⟩
        else
          let r := sizeGate env maxFileSize bd yes responses.tail rest
          ⟨r.included, displayName env bd file :: r.skipped, r.prompts + 1⟩
    else
      let r := sizeGate env maxFileSize bd yes responses rest
      ⟨file :: r.included, r.skipped, r.prompts⟩

/-- Embeds the output assembly loop: per file a header line naming the
display path, the content with trailing whitespace trimmed, and an empty
line, all joined with newlines. -/
def buildOutput (env : Env) (bd : String) (files : List String) : String :=
  String.intercalate "\n"
    (files.flatMap (fun file =>
      ["-- file: " ++ displayName env bd file ++ " --",
       trimEndStr (env.readText file),
       ""]))

/-- JS truthiness of the optional output path: undefined and the empty
string are falsy. -/
def truthyStr : Option String → Bool
  | none => false
  | some s => decide (s ≠ "")

/-- Where the assembled body goes, embedding the three trailing if
statements: clipboard when copy is set, a file when the output option is
truthy, stdout exactly when neither holds. -/
structure SinkActions where
  toClipboard : Bool
  toFile : Option String
  toStdout : Bool
  deriving DecidableEq

/-- Embeds the sink dispatch. -/
def dispatchSinks (output : Option String) (copy : Bool) : SinkActions :=
  { toClipboard := copy,
    toFile := if truthyStr output then output else none,
    toStdout := !truthyStr output && !copy }

/-- The parsed configuration, as in the CataiOptions interface. -/
structure CataiOptions where
  output : Option String
  «include» : Option (List String)
  «exclude» : Option (List String)
  maxSize : String
  yes : Bool
  copy : Bool
  paths : List String

/-- Observable outcome of one run: the gate result, the assembled body,
its token estimate, and the chosen sinks. -/
structure RunOutcome where
  included : List String
  skipped : List String
  prompts : Nat
  body : String
  totalTokens : Nat
  sinks : SinkActions
  deriving DecidableEq

/-- Embeds the main program flow (after argument parsing): parse the size
threshold, resolve all inputs, compute the base directory, filter, run
the size gate, assemble the body and estimate its tokens, and dispatch
sinks.  none models the fatal exits (invalid size format, nonexistent
input path). -/
def runCatai (env : Env) (opts : CataiOptions) (responses : List (Option String)) : Option RunOutcome :=
  match parseMaxSize opts.maxSize with
  | none => none
  | some maxFileSize =>
    match resolveInputs env opts.paths with
    | none => none
    | some allFiles =>
      let bd := baseDirOf env opts.paths
      let filteredFiles := applyFilters env opts.include opts.exclude bd allFiles
      let g := sizeGate env maxFileSize bd opts.yes responses filteredFiles
      let result := buildOutput env bd g.included
      some
        { included := g.included,
          skipped := g.skipped,
          prompts := g.prompts,
          body := result,
          totalTokens := estimateTokens result,
          sinks := dispatchSinks opts.output opts.copy }

/-! Helper lemmas about the size gate. -/

/-- In the sticky auto-include state the gate includes every text
candidate, skips nothing, and issues no prompt. -/
theorem sizeGate_auto (env : Env) (m : Nat) (bd : String) :
    ∀ (cs : List String) (rs : List (Option String)),
      sizeGate env m bd true rs cs = ⟨cs.filter (fun f => isTextFile env f), [], 0⟩ := by
  intro cs
  induction cs with
  | nil => intro rs; rfl
  | cons c rest ih =>
    intro rs
    by_cases h : isTextFile env c = false
    · simp [sizeGate, h, ih rs, List.filter_cons]
    · have h' : isTextFile env c = true := by
        revert h; cases isTextFile env c <;> simp
      by_cases hs : m < env.statSize c <;>
        simp [sizeGate, h', hs, ih rs, List.filter_cons]

/-- A concrete environment for witnesses: every path stats as a plain
file whose content is the two bytes of "hi"; the two paths big1.txt and
big2.txt stat as 5000 bytes, everything else as 10 bytes. -/
def envW : Env where
  fs := fun _ => some FsEntry.file
  statSize := fun p => if p = "big1.txt" ∨ p = "big2.txt" then 5000 else 10
  readBytes := fun _ => some [104, 105]
  readText := fun _ => "hi"
  rel := fun _ p => p
  globMatch := fun pat s => pat == s
  resolvePath := fun p => p
  cwd := "/w"

/-- Claim C1: once the operator answers the confirmation prompt with a or
all (case-insensitive, whitespace-trimmed) for an oversized text
candidate, that candidate is included, and the rest of the run proceeds
in the sticky auto-include state: every remaining text candidate (in
particular every oversized one) is included, nothing more is skipped,
and exactly the one prompt already issued is ever issued. -/
theorem sizeGate_all_answer_sticky_auto_include (env : Env) (m : Nat) (bd : String)
    (r : String) (rs : List (Option String)) (c : String) (rest : List String)
    (hText : isTextFile env c = true) (hBig : m < env.statSize c)
    (hChoice : normChoice (some r) = "a" ∨ normChoice (some r) = "all") :
    sizeGate env m bd false (some r :: rs) (c :: rest) =
      ⟨c :: rest.filter (fun f => isTextFile env f), [], 1⟩ := by
  rcases hChoice with h | h <;>
    simp [sizeGate, hText, hBig, h, sizeGate_auto]

/-- Witness for C1: with threshold 1000, two oversized files and the
single answer "A " (exercising lower-casing and trimming), both files
end up included and only one prompt is issued. -/
theorem sizeGate_all_answer_sticky_auto_include_witness :
    sizeGate envW 1000 "/w" false [some "A "] ["big1.txt", "big2.txt"] =
      ⟨["big1.txt", "big2.txt"], [], 1⟩ := by
  have h := sizeGate_all_answer_sticky_auto_include envW 1000 "/w" "A " []
    "big1.txt" ["big2.txt"] (by decide) (by decide) (Or.inl (by decide))
  have hf : List.filter (fun f => isTextFile envW f) ["big2.txt"] = ["big2.txt"] := by decide
  rw [hf] at h
  exact h

/-- Claim C2: once the operator answers the confirmation prompt with s or
skip for an oversized text candidate, that candidate is recorded as
skipped (by display name) and the loop breaks: whatever the remaining
candidates are, they appear in neither the included nor the skipped
sequence, and no further prompt is issued. -/
theorem sizeGate_skip_answer_stops_run (env : Env) (m : Nat) (bd : String)
    (r : String) (rs : List (Option String)) (c : String) (rest : List String)
    (hText : isTextFile env c = true) (hBig : m < env.statSize c)
    (hChoice : normChoice (some r) = "s" ∨ normChoice (some r) = "skip") :
    sizeGate env m bd false (some r :: rs) (c :: rest) =
      ⟨[], [displayName env bd c], 1⟩ := by
  rcases hChoice with h | h <;>
    simp [sizeGate, hText, hBig, h]

/-- Witness for C2: with the answer "s" the oversized first file is the
lone skipped entry and the second file is processed in no way. -/
theorem sizeGate_skip_answer_stops_run_witness :
    sizeGate envW 1000 "/w" false [some "s"] ["big1.txt", "big2.txt"] =
      ⟨[], ["big1.txt"], 1⟩ := by
  have h := sizeGate_skip_answer_stops_run envW 1000 "/w" "s" []
    "big1.txt" ["big2.txt"] (by decide) (by decide) (Or.inl (by decide))
  have hd : displayName envW "/w" "big1.txt" = "big1.txt" := by decide
  rw [hd] at h
  exact h

/-- Claim C3: a text candidate whose size does not exceed the threshold
is included unconditionally and without any prompt, whatever the current
value of the yes flag (auto-confirm or sticky auto-include state): the
gate conses the file onto the result of the rest of the run, leaving the
skipped list, the prompt count and the response stream untouched. -/
theorem sizeGate_small_file_included_unconditionally (env : Env) (m : Nat) (bd : String)
    (y : Bool) (rs : List (Option String)) (c : String) (rest : List String)
    (hText : isTextFile env c = true) (hSmall : env.statSize c ≤ m) :
    sizeGate env m bd y rs (c :: rest) =
      ⟨c :: (sizeGate env m bd y rs rest).included,
       (sizeGate env m bd y rs rest).skipped,
       (sizeGate env m bd y rs rest).prompts⟩ := by
  simp [sizeGate, hText, Nat.not_lt.mpr hSmall]

/-- Witness for C3: a 10 byte file under a 1000 byte threshold is
included with no prompt and no response consumed. -/
theorem sizeGate_small_file_included_unconditionally_witness :
    sizeGate envW 1000 "/w" false [] ["small.txt"] = ⟨["small.txt"], [], 0⟩ := by
  have h := sizeGate_small_file_included_unconditionally envW 1000 "/w" false []
    "small.txt" [] (by decide) (by decide)
  simpa [sizeGate] using h

/-- The paths a gate run includes form a sublist of the text candidates,
in order: the gate never reorders, duplicates or invents entries. -/
theorem sizeGate_included_sublist_filter (env : Env) (m : Nat) (bd : String) :
    ∀ (cs : List String) (y : Bool) (rs : List (Option String)),
      ((sizeGate env m bd y rs cs).included).Sublist
        (cs.filter (fun f => isTextFile env f)) := by
  intro cs
  induction cs with
  | nil => intro y rs; simp [sizeGate]
  | cons c rest ih =>
    intro y rs
    by_cases h : isTextFile env c = false
    · simpa [sizeGate, h, List.filter_cons] using ih y rs
    · have h' : isTextFile env c = true := by
        revert h; cases isTextFile env c <;> simp
      by_cases hs : m < env.statSize c
      · cases y with
        | false =>
          by_cases h1 : normChoice (rs.head?.getD none) = "a" ∨ normChoice (rs.head?.getD none) = "all"
          · simpa [sizeGate, h', hs, h1, List.filter_cons] using (ih true rs.tail).cons₂ c
          · by_cases h2 : normChoice (rs.head?.getD none) = "s" ∨ normChoice (rs.head?.getD none) = "skip"
            · simp [sizeGate, h', hs, h1, h2]
            · by_cases h3 : normChoice (rs.head?.getD none) = "y" ∨ normChoice (rs.head?.getD none) = "yes"
              · simpa [sizeGate, h', hs, h1, h2, h3, List.filter_cons] using (ih false rs.tail).cons₂ c
              · simpa [sizeGate, h', hs, h1, h2, h3, List.filter_cons] using (ih false rs.tail).cons c
        | true =>
          simpa [sizeGate, h', hs, List.filter_cons] using (ih true rs).cons₂ c
      · simpa [sizeGate, h', hs, List.filter_cons] using (ih y rs).cons₂ c

/-- Every path a gate run includes is a text candidate. -/
theorem sizeGate_included_isText (env : Env) (m : Nat) (bd : String)
    (y : Bool) (rs : List (Option String)) (cs : List String) (f : String)
    (hf : f ∈ (sizeGate env m bd y rs cs).included) : isTextFile env f = true := by
  have hsub := sizeGate_included_sublist_filter env m bd cs y rs
  have hmem : f ∈ cs.filter (fun g => isTextFile env g) := hsub.subset hf
  simpa using (List.mem_filter.mp hmem).2

/-- The include filter yields a sublist of its input. -/
theorem includeFilter_sublist (env : Env) (inc : Option (List String)) (bd : String)
    (files : List String) : (includeFilter env inc bd files).Sublist files := by
  cases inc with
  | none => exact List.Sublist.refl _
  | some ps =>
    by_cases hp : 0 < ps.length
    · simp only [includeFilter, hp, if_true]
      exact List.filter_sublist _
    · simp only [includeFilter, hp, if_false]
      exact List.Sublist.refl _

/-- The exclude filter yields a sublist of its input. -/
theorem excludeFilter_sublist (env : Env) (exc : Option (List String)) (bd : String)
    (files : List String) : (excludeFilter env exc bd files).Sublist files := by
  cases exc with
  | none => exact List.Sublist.refl _
  | some ps =>
    by_cases hp : 0 < ps.length
    · simp only [excludeFilter, hp, if_true]
      exact List.filter_sublist _
    · simp only [excludeFilter, hp, if_false]
      exact List.Sublist.refl _

/-- Both filters together yield a sublist of the resolved file list. -/
theorem applyFilters_sublist (env : Env) (inc exc : Option (List String)) (bd : String)
    (files : List String) : (applyFilters env inc exc bd files).Sublist files :=
  (excludeFilter_sublist env exc bd _).trans (includeFilter_sublist env inc bd files)

/-- The accumulation loop concatenates the per-input file lists. -/
theorem resolveInputs_eq_flatten (env : Env) :
    ∀ (paths : List String) (ls : List (List String)),
      perInputFiles env paths = some ls →
      resolveInputs env paths = some ls.flatten := by
  intro paths
  induction paths with
  | nil =>
    intro ls h
    simp only [perInputFiles, Option.some.injEq] at h
    subst h
    simp [resolveInputs]
  | cons p rest ih =>
    intro ls h
    simp only [perInputFiles] at h
    cases hg : getFiles env (env.resolvePath p) with
    | none => simp [hg] at h
    | some a =>
      cases hr : perInputFiles env rest with
      | none => simp [hg, hr] at h
      | some as =>
        simp only [hg, hr, Option.some.injEq] at h
        subst h
        simp [resolveInputs, hg, ih as hr]

/-- Environment for the duplicate-input counterexample of claim C4: the
input name f resolves to /w/f, an existing plain text file of 10 bytes. -/
def envDup : Env where
  fs := fun p => if p = "/w/f" then some FsEntry.file else none
  statSize := fun _ => 10
  readBytes := fun _ => some [104, 105]
  readText := fun _ => "hi"
  rel := fun _ p => if p = "/w/f" then "f" else p
  globMatch := fun pat s => pat == s
  resolvePath := fun p => if p = "f" then "/w/f" else p
  cwd := "/w"

/-- Options for the duplicate-input counterexample: the same existing
file given twice as an input path, no patterns, default threshold. -/
def optsDup : CataiOptions := ⟨none, none, none, "100k", false, false, ["f", "f"]⟩

/-- Counterexample to claim C4: with the same existing file given as two
input paths, the resolver produces that file twice (the accumulation
loop concatenates per-input results with no deduplication), so its output
is not duplicate-free, and the full run includes the file twice. -/
theorem resolver_duplicate_inputs_counterexample :
    resolveInputs envDup ["f", "f"] = some ["/w/f", "/w/f"] ∧
      ¬ (["/w/f", "/w/f"] : List String).Nodup ∧
      (runCatai envDup optsDup []).map RunOutcome.included = some ["/w/f", "/w/f"] := by
  refine ⟨by decide, by decide, by decide⟩

/-- On a duplicate-free candidate list the gate places each candidate in
at most one of its two sequences: the skipped names are exactly the
display names of a set S of text candidates, and S is disjoint from the
included paths. -/
theorem sizeGate_partition (env : Env) (m : Nat) (bd : String) :
    ∀ (cs : List String) (y : Bool) (rs : List (Option String)), cs.Nodup →
      ∃ S : List String,
        (sizeGate env m bd y rs cs).skipped = S.map (displayName env bd) ∧
        S.Sublist cs ∧
        (∀ f ∈ S, isTextFile env f = true) ∧
        (∀ f ∈ (sizeGate env m bd y rs cs).included, f ∉ S) := by
  intro cs
  induction cs with
  | nil =>
    intro y rs _
    exact ⟨[], by simp [sizeGate], by simp, by simp, by simp [sizeGate]⟩
  | cons c rest ih =>
    intro y rs hnd
    have hc : c ∉ rest := (List.nodup_cons.mp hnd).1
    have hr : rest.Nodup := (List.nodup_cons.mp hnd).2
    by_cases h : isTextFile env c = false
    · obtain ⟨S, hS1, hS2, hS3, hS4⟩ := ih y rs hr
      refine ⟨S, by simpa [sizeGate, h] using hS1, hS2.cons c, hS3, ?_⟩
      intro f hf
      exact hS4 f (by simpa [sizeGate, h] using hf)
    · have h' : isTextFile env c = true := by
        revert h; cases isTextFile env c <;> simp
      by_cases hs : m < env.statSize c
      · cases y with
        | false =>
          by_cases h1 : normChoice (rs.head?.getD none) = "a" ∨ normChoice (rs.head?.getD none) = "all"
          · obtain ⟨S, hS1, hS2, hS3, hS4⟩ := ih true rs.tail hr
            refine ⟨S, by simpa [sizeGate, h', hs, h1] using hS1, hS2.cons c, hS3, ?_⟩
            intro f hf
            have hf' : f ∈ c :: (sizeGate env m bd true rs.tail rest).included := by
              simpa [sizeGate, h', hs, h1] using hf
            rcases List.mem_cons.mp hf' with rfl | hf2
            · exact fun hfS => hc (hS2.subset hfS)
            · exact hS4 f hf2
          · by_cases h2 : normChoice (rs.head?.getD none) = "s" ∨ normChoice (rs.head?.getD none) = "skip"
            · refine ⟨[c], by simp [sizeGate, h', hs, h1, h2], by simp, ?_, ?_⟩
              · intro f hf
                obtain rfl := List.mem_singleton.mp hf
                exact h'
              · intro f hf
                simp [sizeGate, h', hs, h1, h2] at hf
            · by_cases h3 : normChoice (rs.head?.getD none) = "y" ∨ normChoice (rs.head?.getD none) = "yes"
              · obtain ⟨S, hS1, hS2, hS3, hS4⟩ := ih false rs.tail hr
                refine ⟨S, by simpa [sizeGate, h', hs, h1, h2, h3] using hS1, hS2.cons c, hS3, ?_⟩
                intro f hf
                have hf' : f ∈ c :: (sizeGate env m bd false rs.tail rest).included := by
                  simpa [sizeGate, h', hs, h1, h2, h3] using hf
                rcases List.mem_cons.mp hf' with rfl | hf2
                · exact fun hfS => hc (hS2.subset hfS)
                · exact hS4 f hf2
              · obtain ⟨S, hS1, hS2, hS3, hS4⟩ := ih false rs.tail hr
                refine ⟨c :: S, by simp [sizeGate, h', hs, h1, h2, h3, hS1], hS2.cons₂ c, ?_, ?_⟩
                · intro f hf
                  rcases List.mem_cons.mp hf with rfl | hf2
                  · exact h'
                  · exact hS3 f hf2
                · intro f hf
                  have hf' : f ∈ (sizeGate env m bd false rs.tail rest).included := by
                    simpa [sizeGate, h', hs, h1, h2, h3] using hf
                  intro hfc
                  rcases List.mem_cons.mp hfc with rfl | hfS
                  · exact hc (((sizeGate_included_sublist_filter env m bd rest false rs.tail).trans
                      (List.filter_sublist _)).subset hf')
                  · exact hS4 f hf' hfS
        | true =>
          obtain ⟨S, hS1, hS2, hS3, hS4⟩ := ih true rs hr
          refine ⟨S, by simpa [sizeGate, h', hs] using hS1, hS2.cons c, hS3, ?_⟩
          intro f hf
          have hf' : f ∈ c :: (sizeGate env m bd true rs rest).included := by
            simpa [sizeGate, h', hs] using hf
          rcases List.mem_cons.mp hf' with rfl | hf2
          · exact fun hfS => hc (hS2.subset hfS)
          · exact hS4 f hf2
      · obtain ⟨S, hS1, hS2, hS3, hS4⟩ := ih y rs hr
        refine ⟨S, by simpa [sizeGate, h', hs] using hS1, hS2.cons c, hS3, ?_⟩
        intro f hf
        have hf' : f ∈ c :: (sizeGate env m bd y rs rest).included := by
          simpa [sizeGate, h', hs] using hf
        rcases List.mem_cons.mp hf' with rfl | hf2
        · exact fun hfS => hc (hS2.subset hfS)
        · exact hS4 f hf2

/-- Claim C4 amended: when the per-input resolved file lists are each
duplicate-free and pairwise disjoint (in particular when the input paths
do not overlap or repeat), the resolver output allFiles is duplicate-free
and every run keeps the selection invariant: the included sequence
contains no path twice, the skipped names are the display names of a set
S of text candidates, and every file lies in at most one of the four
categories included (a member of the included paths), skipped (a member
of S), excluded-by-filter (in allFiles but dropped by the pattern
filters) and excluded-as-binary (a filtered candidate classified
non-text) — all six pairs of categories exclude each other. -/
theorem resolver_disjoint_inputs_nodup (env : Env) (paths : List String)
    (ls : List (List String))
    (h : perInputFiles env paths = some ls)
    (hnd : ∀ l ∈ ls, l.Nodup)
    (hdisj : ls.Pairwise (fun l₁ l₂ => ∀ a ∈ l₁, a ∉ l₂)) :
    ∃ allFiles, resolveInputs env paths = some allFiles ∧ allFiles.Nodup ∧
      ∀ (m : Nat) (bd : String) (y : Bool) (rs : List (Option String))
        (inc exc : Option (List String)),
        ((sizeGate env m bd y rs (applyFilters env inc exc bd allFiles)).included).Nodup ∧
        ∃ S : List String,
          (sizeGate env m bd y rs (applyFilters env inc exc bd allFiles)).skipped
            = S.map (displayName env bd) ∧
          ∀ f : String,
            ¬(f ∈ (sizeGate env m bd y rs (applyFilters env inc exc bd allFiles)).included ∧
                f ∈ S) ∧
            ¬(f ∈ (sizeGate env m bd y rs (applyFilters env inc exc bd allFiles)).included ∧
                f ∈ allFiles ∧ f ∉ applyFilters env inc exc bd allFiles) ∧
            ¬(f ∈ (sizeGate env m bd y rs (applyFilters env inc exc bd allFiles)).included ∧
                f ∈ applyFilters env inc exc bd allFiles ∧ isTextFile env f = false) ∧
            ¬(f ∈ S ∧ f ∈ allFiles ∧ f ∉ applyFilters env inc exc bd allFiles) ∧
            ¬(f ∈ S ∧ f ∈ applyFilters env inc exc bd allFiles ∧ isTextFile env f = false) ∧
            ¬((f ∈ allFiles ∧ f ∉ applyFilters env inc exc bd allFiles) ∧
                f ∈ applyFilters env inc exc bd allFiles ∧ isTextFile env f = false) := by
  have hflat : ls.flatten.Nodup :=
    List.nodup_flatten.mpr ⟨hnd, hdisj.imp (fun h12 a ha hb => h12 a ha hb)⟩
  refine ⟨ls.flatten, resolveInputs_eq_flatten env paths ls h, hflat, ?_⟩
  intro m bd y rs inc exc
  have hFnd : (applyFilters env inc exc bd ls.flatten).Nodup :=
    List.Nodup.sublist (applyFilters_sublist env inc exc bd ls.flatten) hflat
  have hincl : ((sizeGate env m bd y rs (applyFilters env inc exc bd ls.flatten)).included).Nodup :=
    List.Nodup.sublist
      ((sizeGate_included_sublist_filter env m bd _ y rs).trans (List.filter_sublist _)) hFnd
  obtain ⟨S, hS1, hS2, hS3, hS4⟩ :=
    sizeGate_partition env m bd (applyFilters env inc exc bd ls.flatten) y rs hFnd
  refine ⟨hincl, S, hS1, ?_⟩
  intro f
  have hIncF : ∀ g ∈ (sizeGate env m bd y rs (applyFilters env inc exc bd ls.flatten)).included,
      g ∈ applyFilters env inc exc bd ls.flatten ∧ isTextFile env g = true := by
    intro g hg
    exact ⟨((sizeGate_included_sublist_filter env m bd _ y rs).trans
        (List.filter_sublist _)).subset hg,
      sizeGate_included_isText env m bd y rs _ g hg⟩
  have hSF : ∀ g ∈ S, g ∈ applyFilters env inc exc bd ls.flatten :=
    fun g hg => hS2.subset hg
  refine ⟨?_, ?_, ?_, ?_, ?_, ?_⟩
  · rintro ⟨hA, hB⟩
    exact hS4 f hA hB
  · rintro ⟨hA, _, hC⟩
    exact hC (hIncF f hA).1
  · rintro ⟨hA, _, hD⟩
    exact Bool.noConfusion (((hIncF f hA).2).symm.trans hD)
  · rintro ⟨hB, _, hC⟩
    exact hC (hSF f hB)
  · rintro ⟨hB, _, hD⟩
    exact Bool.noConfusion ((hS3 f hB).symm.trans hD)
  · rintro ⟨⟨_, hC⟩, hD, _⟩
    exact hC hD

/-- Witness for the amended C4: two distinct input files resolve to a
duplicate-free list whose every gate run has a duplicate-free inclusion
and pairwise-exclusive selection categories. -/
theorem resolver_disjoint_inputs_nodup_witness :
    ∃ allFiles, resolveInputs envW ["a.md", "b.md"] = some allFiles ∧ allFiles.Nodup ∧
      ∀ (m : Nat) (bd : String) (y : Bool) (rs : List (Option String))
        (inc exc : Option (List String)),
        ((sizeGate envW m bd y rs (applyFilters envW inc exc bd allFiles)).included).Nodup ∧
        ∃ S : List String,
          (sizeGate envW m bd y rs (applyFilters envW inc exc bd allFiles)).skipped
            = S.map (displayName envW bd) ∧
          ∀ f : String,
            ¬(f ∈ (sizeGate envW m bd y rs (applyFilters envW inc exc bd allFiles)).included ∧
                f ∈ S) ∧
            ¬(f ∈ (sizeGate envW m bd y rs (applyFilters envW inc exc bd allFiles)).included ∧
                f ∈ allFiles ∧ f ∉ applyFilters envW inc exc bd allFiles) ∧
            ¬(f ∈ (sizeGate envW m bd y rs (applyFilters envW inc exc bd allFiles)).included ∧
                f ∈ applyFilters envW inc exc bd allFiles ∧ isTextFile envW f = false) ∧
            ¬(f ∈ S ∧ f ∈ allFiles ∧ f ∉ applyFilters envW inc exc bd allFiles) ∧
            ¬(f ∈ S ∧ f ∈ applyFilters envW inc exc bd allFiles ∧ isTextFile envW f = false) ∧
            ¬((f ∈ allFiles ∧ f ∉ applyFilters envW inc exc bd allFiles) ∧
                f ∈ applyFilters envW inc exc bd allFiles ∧ isTextFile envW f = false) :=
  resolver_disjoint_inputs_nodup envW ["a.md", "b.md"] [["a.md"], ["b.md"]]
    (by decide) (by decide) (by decide)

/-- Environment with an empty readable file, for the classifier claims:
every path stats as an existing plain file whose content is empty. -/
def envEmpty : Env where
  fs := fun _ => some FsEntry.file
  statSize := fun _ => 0
  readBytes := fun _ => some []
  readText := fun _ => ""
  rel := fun _ p => p
  globMatch := fun pat s => pat == s
  resolvePath := fun p => p
  cwd := "/w"

/-- Claim C10: a zero-byte file whose extension is not in the binary set
and whose content reads successfully is classified as binary (the source
divides 0 by 0, and NaN compared below 0.1 is false), and therefore its
path is never included by any size gate run. -/
theorem empty_file_classified_binary_never_included (env : Env) (path : String)
    (hext : BINARY_EXT.contains (extOf path) = false)
    (hread : env.readBytes path = some []) :
    isTextFile env path = false ∧
      ∀ (m : Nat) (bd : String) (y : Bool) (rs : List (Option String)) (cs : List String),
        path ∉ (sizeGate env m bd y rs cs).included := by
  have hbin : isTextFile env path = false := by
    unfold isTextFile
    rw [hext]
    simp [hread]
  refine ⟨hbin, ?_⟩
  intro m bd y rs cs hmem
  have htext := sizeGate_included_isText env m bd y rs cs path hmem
  rw [hbin] at htext
  exact Bool.false_ne_true htext

/-- Witness for C10: the concrete empty file empty.txt is classified
binary and no gate run includes it. -/
theorem empty_file_classified_binary_never_included_witness :
    isTextFile envEmpty "empty.txt" = false ∧
      ∀ (m : Nat) (bd : String) (y : Bool) (rs : List (Option String)) (cs : List String),
        "empty.txt" ∉ (sizeGate envEmpty m bd y rs cs).included :=
  empty_file_classified_binary_never_included envEmpty "empty.txt" (by decide) (by decide)

/-- A successful run determines its parts: the parsed threshold, the
resolved file list, and the gate result the outcome is built from. -/
theorem runCatai_included (env : Env) (opts : CataiOptions) (rs : List (Option String))
    (out : RunOutcome) (h : runCatai env opts rs = some out) :
    ∃ m allFiles, parseMaxSize opts.maxSize = some m ∧
      resolveInputs env opts.paths = some allFiles ∧
      out.included = (sizeGate env m (baseDirOf env opts.paths) opts.yes rs
        (applyFilters env opts.include opts.exclude (baseDirOf env opts.paths) allFiles)).included := by
  unfold runCatai at h
  cases hm : parseMaxSize opts.maxSize with
  | none => rw [hm] at h; cases h
  | some m =>
    rw [hm] at h
    cases hr : resolveInputs env opts.paths with
    | none => rw [hr] at h; cases h
    | some allFiles =>
      rw [hr] at h
      simp only [Option.some.injEq] at h
      subst h
      exact ⟨m, allFiles, rfl, rfl, rfl⟩

/-- Environment for the include-pattern counterexample of claim C5: a
single directory /b holding the file /b/x.ts, whose path relative to /b
is x.ts.  The glob matcher is instantiated on a pattern with no wildcard
characters, for which globToRegExp produces an anchored regex with all
characters escaped, that is, an exact string match. -/
def envC5 : Env where
  fs := fun p =>
    if p = "/b" then some (FsEntry.dir ["/b/x.ts"])
    else if p = "/b/x.ts" then some FsEntry.file
    else none
  statSize := fun _ => 5
  readBytes := fun _ => some [104, 105]
  readText := fun _ => "hi"
  rel := fun b p => if b = "/b" ∧ p = "/b/x.ts" then "x.ts" else p
  globMatch := fun pat s => pat == s
  resolvePath := fun p => p
  cwd := "/b"

/-- Options for the include-pattern counterexample: input /b with the
single include pattern /b/x.ts. -/
def optsC5 : CataiOptions := ⟨none, some ["/b/x.ts"], none, "100k", false, false, ["/b"]⟩

/-- Counterexample to claim C5: the include pattern /b/x.ts matches the
absolute path of /b/x.ts but not its path relative to the base directory,
yet matchesPattern tests both forms, so the file survives the include
filter and ends up in the final included sequence while its relative
path matches no include pattern. -/
theorem includeFilter_absolute_match_counterexample :
    (runCatai envC5 optsC5 []).map RunOutcome.included = some ["/b/x.ts"] ∧
      List.all ["/b/x.ts"]
        (fun pat => envC5.globMatch pat (envC5.rel (baseDirOf envC5 ["/b"]) "/b/x.ts")) = false := by
  refine ⟨by decide, by decide⟩

/-- Claim C5 amended: in every successful run configured with a present,
non-empty include pattern set, every file of the final included sequence
matches at least one include pattern in its relative or its absolute
form (the disjunction matchesPattern tests). -/
theorem included_matches_include_pattern (env : Env) (opts : CataiOptions)
    (rs : List (Option String)) (out : RunOutcome) (ps : List String)
    (h : runCatai env opts rs = some out) (hinc : opts.include = some ps)
    (hne : 0 < ps.length) :
    ∀ f ∈ out.included, matchesPattern env f ps (baseDirOf env opts.paths) = true := by
  intro f hf
  obtain ⟨m, allFiles, _, _, hout⟩ := runCatai_included env opts rs out h
  rw [hout] at hf
  have h1 : f ∈ applyFilters env opts.include opts.exclude (baseDirOf env opts.paths) allFiles :=
    ((sizeGate_included_sublist_filter env m (baseDirOf env opts.paths) _ opts.yes rs).trans
      (List.filter_sublist _)).subset hf
  have h2 : f ∈ includeFilter env opts.include (baseDirOf env opts.paths) allFiles :=
    (excludeFilter_sublist env opts.exclude (baseDirOf env opts.paths) _).subset h1
  rw [hinc] at h2
  simp only [includeFilter, hne, if_true] at h2
  exact (List.mem_filter.mp h2).2

/-- Witness for the amended C5: a run over one file a.md with the single
include pattern a.md; the included file matches the pattern. -/
theorem included_matches_include_pattern_witness :
    matchesPattern envW "a.md" ["a.md"] (baseDirOf envW ["a.md"]) = true := by
  have h := included_matches_include_pattern envW
    ⟨none, some ["a.md"], none, "100k", false, false, ["a.md"]⟩ []
    ⟨["a.md"], [], 0, "-- file: a.md --\nhi\n", 6, ⟨false, none, true⟩⟩
    ["a.md"] (by decide) rfl (by decide)
  exact h "a.md" (by decide)

/-- Counterexample to claim C6: an empty readable file whose extension is
not in the binary set is classified binary, although the zero-byte
fraction of its (empty) sample is not at or above one tenth — the source
computes 0 / 0, which is NaN, and NaN compared below 0.1 is false, never
at or above it. -/
theorem classifier_empty_sample_counterexample :
    BINARY_EXT.contains (extOf "empty.txt") = false ∧
      envEmpty.readBytes "empty.txt" = some [] ∧
      isTextFile envEmpty "empty.txt" = false ∧
      zeroFraction (([] : List Nat).take 8000) < 1 / 10 := by
  refine ⟨by decide, rfl, by decide, ?_⟩
  norm_num [zeroFraction, nullCountOf]

/-- Claim C6 amended: for a candidate whose (case-insensitive) extension
is not in the binary set, an unreadable content fails closed to binary,
and readable content is classified binary exactly when the 8000-byte
sample is empty or its zero-byte fraction is at least one tenth. -/
theorem classifier_binary_iff_zero_fraction (env : Env) (path : String)
    (hext : BINARY_EXT.contains (extOf path) = false) :
    (env.readBytes path = none → isTextFile env path = false) ∧
      ∀ data, env.readBytes path = some data →
        (isTextFile env path = false ↔
          ((data.take 8000).length = 0 ∨ 1 / 10 ≤ zeroFraction (data.take 8000))) := by
  constructor
  · intro hnone
    unfold isTextFile
    rw [hext]
    simp [hnone]
  · intro data hdata
    unfold isTextFile
    rw [hext]
    simp only [Bool.false_eq_true, if_false, hdata]
    rcases Nat.eq_zero_or_pos (data.take 8000).length with hz | hpos
    · simp [hz]
    · have hlen : (0:ℚ) < ((data.take 8000).length : ℚ) := by exact_mod_cast hpos
      rw [zeroFraction, div_le_div_iff₀ (by norm_num : (0:ℚ) < 10) hlen]
      have hcast : ((1:ℚ) * ((data.take 8000).length : ℚ) ≤ (nullCountOf (data.take 8000) : ℚ) * 10) ↔
          ((data.take 8000).length ≤ nullCountOf (data.take 8000) * 10) := by
        constructor
        · intro hx; exact_mod_cast (by linarith : (((data.take 8000).length : ℚ)) ≤ (nullCountOf (data.take 8000) : ℚ) * 10)
        · intro hx
          have : (((data.take 8000).length : ℚ)) ≤ (nullCountOf (data.take 8000) : ℚ) * 10 := by
            exact_mod_cast hx
          linarith
      rw [hcast]
      simp only [decide_eq_false_iff_not, not_and, not_lt, ne_eq]
      omega

/-- Witness for the amended C6: the empty file of envEmpty instantiates
both branches of the amended classification contract. -/
theorem classifier_binary_iff_zero_fraction_witness :
    (envEmpty.readBytes "empty.txt" = none → isTextFile envEmpty "empty.txt" = false) ∧
      ∀ data, envEmpty.readBytes "empty.txt" = some data →
        (isTextFile envEmpty "empty.txt" = false ↔
          ((data.take 8000).length = 0 ∨ 1 / 10 ≤ zeroFraction (data.take 8000))) :=
  classifier_binary_iff_zero_fraction envEmpty "empty.txt" (by decide)

/-- Claim C7: the token estimate is exactly the ceiling of the character
count divided by 3.5, and (being a function of the text alone) is
deterministic. -/
theorem estimateTokens_eq_ceil_div (text : String) :
    (estimateTokens text : ℤ) = ⌈(text.length : ℚ) / 3.5⌉ := by
  have key : (text.length : ℚ) / 3.5 = (2 * (text.length : ℚ)) / 7 := by
    rw [show (3.5 : ℚ) = 7 / 2 from by norm_num, div_div_eq_mul_div]
    ring
  rw [key]
  symm
  rw [Int.ceil_eq_iff]
  have hq := Nat.div_add_mod (2 * text.length + 6) 7
  have hr := Nat.mod_lt (2 * text.length + 6) (by norm_num : 0 < 7)
  constructor
  · rw [lt_div_iff₀ (by norm_num : (0:ℚ) < 7)]
    have hnat : 7 * ((2 * text.length + 6) / 7) < 2 * text.length + 7 := by omega
    have hcast : (7:ℚ) * (((2 * text.length + 6) / 7 : ℕ) : ℚ) < 2 * (text.length:ℚ) + 7 := by
      exact_mod_cast hnat
    unfold estimateTokens
    rw [Int.cast_natCast]
    linarith
  · rw [div_le_iff₀ (by norm_num : (0:ℚ) < 7)]
    have hnat : 2 * text.length ≤ 7 * ((2 * text.length + 6) / 7) := by omega
    have hcast : 2 * (text.length:ℚ) ≤ (7:ℚ) * (((2 * text.length + 6) / 7 : ℕ) : ℚ) := by
      exact_mod_cast hnat
    unfold estimateTokens
    rw [Int.cast_natCast]
    linarith

/-- Environment for the single-file concatenation check of claim C8: the
input a.ts resolves to /w/a.ts, an existing 14 byte file whose content is
console.log(4); the base directory falls back to the working directory
/w, relative to which the display name is a.ts. -/
def envC8 : Env where
  fs := fun p => if p = "/w/a.ts" then some FsEntry.file else none
  statSize := fun _ => 14
  readBytes := fun _ => some [99, 111, 110, 115, 111, 108, 101, 46, 108, 111, 103, 40, 52, 41]
  readText := fun _ => "console.log(4)"
  rel := fun b p => if b = "/w" ∧ p = "/w/a.ts" then "a.ts" else p
  globMatch := fun pat s => pat == s
  resolvePath := fun p => if p = "a.ts" then "/w/a.ts" else p
  cwd := "/w"

/-- Options for the single-file concatenation check: the one path a.ts,
no patterns, the default 100k threshold. -/
def optsC8 : CataiOptions := ⟨none, none, none, "100k", false, false, ["a.ts"]⟩

/-- Claim C8: concatenating the single small text file with content
console.log(4) and display name a.ts under threshold 100k (102400 bytes)
yields one included file and a body of exactly one section: the header
line, the content line, and one blank separator line, with no prompt. -/
theorem single_small_file_run :
    parseMaxSize "100k" = some 102400 ∧
      (runCatai envC8 optsC8 []).map
        (fun o => (o.included.length, o.body, o.prompts)) =
        some (1, "-- file: a.ts --\nconsole.log(4)\n", 0) := by
  refine ⟨by decide, by decide⟩

/-- Counterexample to claim C9: with the output option set to the empty
string and the copy flag unset, the output option is set, yet the body
still goes to stdout and no file sink is selected — the source tests JS
truthiness of the option value, and the empty string is falsy. -/
theorem stdout_empty_output_option_counterexample :
    (dispatchSinks (some "") false).toStdout = true ∧
      (some "" : Option String) ≠ none ∧
      (dispatchSinks (some "") false).toFile = none := by
  refine ⟨rfl, by simp, rfl⟩

/-- Claim C9 amended: the body goes to stdout exactly when the copy flag
is unset and the output option is absent or empty (not truthy); whenever
a file sink or the clipboard sink is selected, stdout is not written. -/
theorem stdout_iff_no_truthy_sink (output : Option String) (copy : Bool) :
    ((dispatchSinks output copy).toStdout = true ↔
      (truthyStr output = false ∧ copy = false)) ∧
      (((dispatchSinks output copy).toFile ≠ none ∨
          (dispatchSinks output copy).toClipboard = true) →
        (dispatchSinks output copy).toStdout = false) := by
  cases copy <;> cases h : truthyStr output <;>
    simp [dispatchSinks, h]

/-- Witness for the amended C9: with a non-empty output path and copy
unset, stdout is not selected. -/
theorem stdout_iff_no_truthy_sink_witness :
    (((dispatchSinks (some "out.txt") false).toStdout = true ↔
      (truthyStr (some "out.txt") = false ∧ false = false)) ∧
      (((dispatchSinks (some "out.txt") false).toFile ≠ none ∨
          (dispatchSinks (some "out.txt") false).toClipboard = true) →
        (dispatchSinks (some "out.txt") false).toStdout = false)) :=
  stdout_iff_no_truthy_sink (some "out.txt") false

end Catai
